import Mathlib

/-!
Verification of the mangalytics pipeline against its specification.

The repository is a FastAPI content pipeline (scrape, extract, narrate,
render, mail).  This file gives a shallow embedding of the pieces of the
code that the claims concern:

* the line-oriented narrative parser `_parse_manga_panels`
  (src/app/services/gemini.py);
* the panel rendering layout of `PanelGenerator.create_panel_image`
  (src/app/services/panel_generator.py), including a model of Python
  `textwrap.wrap`;
* the orchestration of `create_recommendation`
  (src/app/routers/recommendations.py) over an abstract metadata store
  (src/app/db/supabase.py), with the external service calls (download,
  Reducto parsing, storage upload, insert) represented by explicit
  outcome values;
* the conflict classification of storage upload errors
  (src/app/routers/recommendations.py, src/app/routers/scraper.py);
* the email failure handling of `ResendService.send_manga_email`
  (src/app/services/resend_email.py), the `/manga` endpoint
  (src/app/routers/manga.py) and the `/subscribe` pipeline
  (src/app/routers/subscriptions.py).

Python strings are modelled over `List Char` with executable
re-implementations of the `str` methods the code uses, so every concrete
scenario can be settled by `decide`.
-/

namespace Mangalytics

/-! ### Python string primitives -/

/-- Whitespace characters of Python `str.strip` / `str.split`
(the ASCII fragment; the inputs in this development are ASCII). -/
def pyIsSpace (c : Char) : Bool :=
  c = ' ' || c = '\t' || c = '\n' || c = '\r' || c = '\x0b' || c = '\x0c'

/-- Python `str.strip()` on a character list: drop leading and trailing
whitespace. -/
def pyStripList (l : List Char) : List Char :=
  ((l.dropWhile pyIsSpace).reverse.dropWhile pyIsSpace).reverse

/-- Python `str.strip()`. -/
def pyStrip (s : String) : String :=
  ⟨pyStripList s.data⟩

/-- Python `str.startswith` on code points: `listStartsWith p s` is true
when `p` is an initial segment of `s`. -/
def listStartsWith : List Char → List Char → Bool
  | [], _ => true
  | _ :: _, [] => false
  | p :: ps, x :: xs => p = x && listStartsWith ps xs

/-- Python `s.startswith(p)`. -/
def pyStartsWith (s p : String) : Bool :=
  listStartsWith p.data s.data

/-- Python substring membership `sub in s` on character lists. -/
def listContainsSub (needle : List Char) : List Char → Bool
  | [] => listStartsWith needle []
  | x :: xs => listStartsWith needle (x :: xs) || listContainsSub needle xs

/-- Python `sub in s`. -/
def pyContains (s sub : String) : Bool :=
  listContainsSub sub.data s.data

/-- Python `str.replace(old, new)` with nonempty `old`: replace every
non-overlapping occurrence, scanning left to right.  `fuel` is an upper
bound on the length of the remaining text (the wrapper passes exactly the
length, which suffices because each step consumes at least one
character). -/
def pyReplaceAux (old new : List Char) : Nat → List Char → List Char
  | _, [] => []
  | 0, s => s
  | fuel + 1, x :: xs =>
    if listStartsWith old (x :: xs) && !old.isEmpty then
      new ++ pyReplaceAux old new fuel (List.drop old.length (x :: xs))
    else
      x :: pyReplaceAux old new fuel xs

/-- Python `s.replace(old, new)` (the source only calls it with nonempty
`old`). -/
def pyReplace (s old new : String) : String :=
  ⟨pyReplaceAux old.data new.data s.data.length s.data⟩

/-- Python `s.split('\n')`: the list of segments between newline
characters; always nonempty, and empty segments are kept. -/
def splitOnNewline : List Char → List (List Char)
  | [] => [[]]
  | x :: xs =>
    let r := splitOnNewline xs
    if x = '\n' then [] :: r
    else
      match r with
      | [] => [[x]]
      | y :: ys => (x :: y) :: ys

/-- Python `narrative.split('\n')`. -/
def pySplitLines (s : String) : List String :=
  (splitOnNewline s.data).map (fun l => ⟨l⟩)

/-! ### The narrative parser `_parse_manga_panels` -/

/-- One parsed manga panel record: the Python dict built by
`_parse_manga_panels`.  A `none` field is a key that is absent from the
dict (never set), as opposed to a key set to the empty string. -/
structure Panel where
  panel_number : Option String := none
  title : Option String := none
  description : Option String := none
  dialogue : Option String := none
  deriving DecidableEq, Repr

/-- Python truthiness of the `current_panel` dict: empty means no key has
been set. -/
def Panel.isEmptyDict (p : Panel) : Bool :=
  p.panel_number.isNone && p.title.isNone && p.description.isNone && p.dialogue.isNone

/-- The initial `current_panel = {}`. -/
def emptyPanel : Panel := {}

/-- One iteration of the line loop of `_parse_manga_panels`
(src/app/services/gemini.py, lines 197-209).  The state is the list of
panels emitted so far together with the in-progress `current_panel`. -/
def parseStep (acc : List Panel × Panel) (rawLine : String) : List Panel × Panel :=
  let panels := acc.1
  let current := acc.2
  let line := pyStrip rawLine
  if pyStartsWith line ("[PANEL") then
    (panels ++ if current.isEmptyDict then [] else [current],
     { panel_number := some line })
  else if pyStartsWith line ("Title:") then
    (panels, { current with title := some (pyStrip (pyReplace line ("Title:") (""))) })
  else if pyStartsWith line ("Description:") then
    (panels, { current with description := some (pyStrip (pyReplace line ("Description:") (""))) })
  else if pyStartsWith line ("Dialogue:") then
    (panels, { current with dialogue := some (pyStrip (pyReplace line ("Dialogue:") (""))) })
  else
    acc

/-- Closing step of `_parse_manga_panels`: append the in-progress panel if
it is nonempty (lines 211-213). -/
def finishState (st : List Panel × Panel) : List Panel :=
  st.1 ++ if st.2.isEmptyDict then [] else [st.2]

/-- Shallow embedding of `GeminiService._parse_manga_panels`
(src/app/services/gemini.py, lines 190-215). -/
def parseMangaPanels (narrative : String) : List Panel :=
  finishState ((pySplitLines narrative).foldl parseStep ([], emptyPanel))

/-- Recursive restatement of the parser loop, convenient for induction;
`foldl_parseStep_eq` proves it equal to the `foldl` form used by
`parseMangaPanels`. -/
def parseFrom : List String → Panel → List Panel
  | [], current => if current.isEmptyDict then [] else [current]
  | raw :: rest, current =>
    let line := pyStrip raw
    if pyStartsWith line ("[PANEL") then
      (if current.isEmptyDict then [] else [current])
        ++ parseFrom rest { panel_number := some line }
    else if pyStartsWith line ("Title:") then
      parseFrom rest { current with title := some (pyStrip (pyReplace line ("Title:") (""))) }
    else if pyStartsWith line ("Description:") then
      parseFrom rest { current with description := some (pyStrip (pyReplace line ("Description:") (""))) }
    else if pyStartsWith line ("Dialogue:") then
      parseFrom rest { current with dialogue := some (pyStrip (pyReplace line ("Dialogue:") (""))) }
    else
      parseFrom rest current

theorem foldl_parseStep_eq (lines : List String) :
    ∀ panels current,
      finishState (lines.foldl parseStep (panels, current))
        = panels ++ parseFrom lines current := by
  induction lines with
  | nil =>
    intro panels current
    simp [finishState, parseFrom]
  | cons raw rest ih =>
    intro panels current
    simp only [List.foldl_cons, parseFrom, parseStep]
    by_cases h1 : pyStartsWith (pyStrip raw) ("[PANEL") = true
    · simp only [h1, if_pos, ih, List.append_assoc]
    · simp only [h1]
      by_cases h2 : pyStartsWith (pyStrip raw) ("Title:") = true
      · simp [h1, h2, ih]
      · by_cases h3 : pyStartsWith (pyStrip raw) ("Description:") = true
        · simp [h1, h2, h3, ih]
        · by_cases h4 : pyStartsWith (pyStrip raw) ("Dialogue:") = true
          · simp [h1, h2, h3, h4, ih]
          · simp [h1, h2, h3, h4, ih]

theorem parseMangaPanels_eq_parseFrom (t : String) :
    parseMangaPanels t = parseFrom (pySplitLines t) emptyPanel := by
  simpa [parseMangaPanels] using foldl_parseStep_eq (pySplitLines t) [] emptyPanel

/-- A `[PANEL` marker line: a line that, after trimming, begins with the
literal `[PANEL` (the condition of line 200 of gemini.py). -/
def isMarkerLine (raw : String) : Bool :=
  pyStartsWith (pyStrip raw) ("[PANEL")

/-- A field line: a line that, after trimming, begins with `Title:`,
`Description:` or `Dialogue:` (lines 204-209 of gemini.py). -/
def isFieldLine (raw : String) : Bool :=
  pyStartsWith (pyStrip raw) ("Title:")
    || pyStartsWith (pyStrip raw) ("Description:")
    || pyStartsWith (pyStrip raw) ("Dialogue:")

/-- The number K of `[PANEL` marker lines of a narrative. -/
def markerCount (lines : List String) : Nat :=
  (lines.filter isMarkerLine).length

/-- True when some field line occurs strictly before the first marker
line (in particular when there are field lines but no marker at all). -/
def hasFieldBeforeMarker : List String → Bool
  | [] => false
  | raw :: rest =>
    if isMarkerLine raw then false
    else if isFieldLine raw then true
    else hasFieldBeforeMarker rest

theorem isEmptyDict_markerPanel (s : String) :
    Panel.isEmptyDict { panel_number := some s } = false := rfl

theorem isEmptyDict_setTitle (p : Panel) (s : String) :
    Panel.isEmptyDict { p with title := some s } = false := by
  simp [Panel.isEmptyDict]

theorem isEmptyDict_setDescription (p : Panel) (s : String) :
    Panel.isEmptyDict { p with description := some s } = false := by
  simp [Panel.isEmptyDict]

theorem isEmptyDict_setDialogue (p : Panel) (s : String) :
    Panel.isEmptyDict { p with dialogue := some s } = false := by
  simp [Panel.isEmptyDict]

theorem parseFrom_map_panelNumber (lines : List String) :
    ∀ current : Panel,
      (parseFrom lines current).map Panel.panel_number
        = (if !current.isEmptyDict || hasFieldBeforeMarker lines then
             [current.panel_number] else [])
          ++ (lines.filter isMarkerLine).map (fun raw => some (pyStrip raw)) := by
  induction lines with
  | nil =>
    intro current
    by_cases h : current.isEmptyDict
    · simp [parseFrom, hasFieldBeforeMarker, h]
    · simp only [Bool.not_eq_true] at h
      simp [parseFrom, hasFieldBeforeMarker, h]
  | cons raw rest ih =>
    intro current
    by_cases h1 : pyStartsWith (pyStrip raw) ("[PANEL") = true
    · have hm : isMarkerLine raw = true := h1
      by_cases h : current.isEmptyDict
      · simp [parseFrom, h1, h, hasFieldBeforeMarker, hm, ih,
          isEmptyDict_markerPanel, List.filter_cons]
      · simp only [Bool.not_eq_true] at h
        simp [parseFrom, h1, h, hasFieldBeforeMarker, hm, ih,
          isEmptyDict_markerPanel, List.filter_cons]
    · have hm : isMarkerLine raw = false := by
        simp [isMarkerLine, h1]
      by_cases h2 : pyStartsWith (pyStrip raw) ("Title:") = true
      · have hf : isFieldLine raw = true := by
          simp [isFieldLine, h2]
        simp [parseFrom, h1, h2, hasFieldBeforeMarker, hm, hf, ih,
          isEmptyDict_setTitle, List.filter_cons]
      · by_cases h3 : pyStartsWith (pyStrip raw) ("Description:") = true
        · have hf : isFieldLine raw = true := by
            simp [isFieldLine, h3]
          simp [parseFrom, h1, h2, h3, hasFieldBeforeMarker, hm, hf, ih,
            isEmptyDict_setDescription, List.filter_cons]
        · by_cases h4 : pyStartsWith (pyStrip raw) ("Dialogue:") = true
          · have hf : isFieldLine raw = true := by
              simp [isFieldLine, h4]
            simp [parseFrom, h1, h2, h3, h4, hasFieldBeforeMarker, hm, hf, ih,
              isEmptyDict_setDialogue, List.filter_cons]
          · have hf : isFieldLine raw = false := by
              simp [isFieldLine, h1, h2, h3, h4]
            simp [parseFrom, h1, h2, h3, h4, hasFieldBeforeMarker, hm, hf, ih,
              List.filter_cons]

theorem parseMangaPanels_map_panelNumber (t : String) :
    (parseMangaPanels t).map Panel.panel_number
      = (if hasFieldBeforeMarker (pySplitLines t) then [none] else [])
        ++ ((pySplitLines t).filter isMarkerLine).map (fun raw => some (pyStrip raw)) := by
  rw [parseMangaPanels_eq_parseFrom]
  have hmap := parseFrom_map_panelNumber (pySplitLines t) emptyPanel
  rw [show Panel.isEmptyDict emptyPanel = true from rfl] at hmap
  rw [show emptyPanel.panel_number = none from rfl] at hmap
  simpa using hmap

/-- C1: for a narrative whose field lines all come after the first
`[PANEL` marker line, `_parse_manga_panels` returns exactly as many panel
records as there are marker lines, in text order (each record's
`panel_number` is the corresponding trimmed marker line).  The original
claim omitted the side condition; `c1_counterexample` shows a text with
one marker parsing to two records when a field line precedes the
marker. -/
theorem c1_panel_count (t : String)
    (h : hasFieldBeforeMarker (pySplitLines t) = false) :
    (parseMangaPanels t).length = markerCount (pySplitLines t)
    ∧ (parseMangaPanels t).map Panel.panel_number
        = ((pySplitLines t).filter isMarkerLine).map (fun raw => some (pyStrip raw)) := by
  have hmap := parseMangaPanels_map_panelNumber t
  rw [h] at hmap
  simp only [Bool.false_eq_true, if_false, List.nil_append] at hmap
  refine ⟨?_, hmap⟩
  have := congrArg List.length hmap
  simpa [markerCount] using this

theorem c1_panel_count_witness :
    hasFieldBeforeMarker (pySplitLines ("[PANEL 1]\nTitle: A\n[PANEL 2]\nTitle: B")) = false
    ∧ (parseMangaPanels ("[PANEL 1]\nTitle: A\n[PANEL 2]\nTitle: B")).length
        = markerCount (pySplitLines ("[PANEL 1]\nTitle: A\n[PANEL 2]\nTitle: B")) :=
  ⟨by decide, (c1_panel_count _ (by decide)).1⟩

/-- C1, counterexample to the claim as stated: the text
`"Title: X\n[PANEL 1]"` contains exactly one `[PANEL` marker but parses
to two records, because the field line before the first marker opens an
extra leading record. -/
theorem c1_counterexample :
    markerCount (pySplitLines ("Title: X\n[PANEL 1]")) = 1
    ∧ (parseMangaPanels ("Title: X\n[PANEL 1]")).length = 2 := by
  decide

/-- C10: a field line occurring before the first `[PANEL` marker makes
`_parse_manga_panels` emit one extra leading record whose `panel_number`
key is absent; with zero markers and at least one field line the result
is exactly one record. -/
theorem c10_leading_record (t : String)
    (h : hasFieldBeforeMarker (pySplitLines t) = true) :
    (parseMangaPanels t).length = markerCount (pySplitLines t) + 1
    ∧ (parseMangaPanels t).head?.map Panel.panel_number = some none
    ∧ (markerCount (pySplitLines t) = 0 → (parseMangaPanels t).length = 1) := by
  have hmap := parseMangaPanels_map_panelNumber t
  rw [h] at hmap
  simp only [if_true, List.singleton_append] at hmap
  have hlen : (parseMangaPanels t).length = markerCount (pySplitLines t) + 1 := by
    have := congrArg List.length hmap
    simpa [markerCount, Nat.add_comm] using this
  refine ⟨hlen, ?_, fun h0 => by omega⟩
  rcases hp : parseMangaPanels t with _ | ⟨p, ps⟩
  · rw [hp] at hmap
    simp at hmap
  · rw [hp] at hmap
    simp only [List.map_cons, List.cons.injEq] at hmap
    simp [hmap.1]

theorem c10_leading_record_witness :
    hasFieldBeforeMarker (pySplitLines ("Title: A\nDialogue: B")) = true
    ∧ (parseMangaPanels ("Title: A\nDialogue: B")).length = 1 :=
  ⟨by decide, ((c10_leading_record _ (by decide)).2.2 (by decide))⟩

theorem parseFrom_dialogue_none (lines : List String) :
    ∀ current : Panel,
      (∀ raw ∈ lines, pyStartsWith (pyStrip raw) ("Dialogue:") = false) →
      current.dialogue = none →
      ∀ p ∈ parseFrom lines current, p.dialogue = none := by
  induction lines with
  | nil =>
    intro current _ hcur p hp
    simp only [parseFrom] at hp
    split at hp
    · simp at hp
    · rw [List.mem_singleton] at hp
      rw [hp]
      exact hcur
  | cons raw rest ih =>
    intro current hall hcur p hp
    have hraw := hall raw (by simp)
    have hrest : ∀ r ∈ rest, pyStartsWith (pyStrip r) ("Dialogue:") = false :=
      fun r hr => hall r (by simp [hr])
    simp only [parseFrom] at hp
    by_cases h1 : pyStartsWith (pyStrip raw) ("[PANEL") = true
    · rw [if_pos h1] at hp
      rcases List.mem_append.1 hp with hmem | hmem
      · split at hmem
        · simp at hmem
        · rw [List.mem_singleton] at hmem
          rw [hmem]
          exact hcur
      · exact ih _ hrest rfl p hmem
    · rw [if_neg h1] at hp
      by_cases h2 : pyStartsWith (pyStrip raw) ("Title:") = true
      · rw [if_pos h2] at hp
        refine ih _ hrest ?_ p hp
        simpa using hcur
      · rw [if_neg h2] at hp
        by_cases h3 : pyStartsWith (pyStrip raw) ("Description:") = true
        · rw [if_pos h3] at hp
          refine ih _ hrest ?_ p hp
          simpa using hcur
        · rw [if_neg h3] at hp
          rw [if_neg (by simp [hraw])] at hp
          exact ih _ hrest hcur p hp

/-- C2: the scenario narrative parses to exactly the two expected
records, the second having its description and dialogue keys absent
(`none`), not set to the empty string; and in general a narrative with no
`Dialogue:` line yields records whose dialogue key is absent. -/
theorem c2_scenario :
    parseMangaPanels ("[PANEL 1]\nTitle: A\nDescription: B\nDialogue: C\n[PANEL 2]\nTitle: D\n")
      = [{ panel_number := some ("[PANEL 1]"), title := some ("A"),
           description := some ("B"), dialogue := some ("C") },
         { panel_number := some ("[PANEL 2]"), title := some ("D") }]
    ∧ ∀ t : String,
        (∀ raw ∈ pySplitLines t, pyStartsWith (pyStrip raw) ("Dialogue:") = false) →
        ∀ p ∈ parseMangaPanels t, p.dialogue = none := by
  constructor
  · decide
  · intro t hall p hp
    rw [parseMangaPanels_eq_parseFrom] at hp
    exact parseFrom_dialogue_none (pySplitLines t) emptyPanel hall rfl p hp

theorem c2_scenario_witness :
    parseMangaPanels ("[PANEL 1]\nTitle: A") = [{ panel_number := some ("[PANEL 1]"), title := some ("A") }]
    ∧ Panel.dialogue { panel_number := some ("[PANEL 1]"), title := some ("A") } = none :=
  ⟨by decide,
   c2_scenario.2 ("[PANEL 1]\nTitle: A") (by decide)
     { panel_number := some ("[PANEL 1]"), title := some ("A") } (by decide)⟩

theorem listStartsWith_append_self (p r : List Char) : listStartsWith p (p ++ r) = true := by
  induction p with
  | nil => rfl
  | cons x xs ih => simp [listStartsWith, ih]

theorem pyReplaceAux_id (old new : List Char) :
    ∀ (l : List Char) (fuel : Nat), listContainsSub old l = false →
      pyReplaceAux old new fuel l = l := by
  intro l
  induction l with
  | nil => intro fuel _; cases fuel <;> rfl
  | cons x xs ih =>
    intro fuel h
    have h2 : listStartsWith old (x :: xs) = false ∧ listContainsSub old xs = false := by
      simpa [listContainsSub] using h
    cases fuel with
    | zero => rfl
    | succ f =>
      simp only [pyReplaceAux, h2.1, Bool.false_and, if_false, Bool.false_eq_true]
      rw [ih f h2.2]

theorem pyReplaceAux_append_self (old new rest : List Char) (hne : old.isEmpty = false)
    (hno : listContainsSub old rest = false) (fuel : Nat) (hf : 0 < fuel) :
    pyReplaceAux old new fuel (old ++ rest) = new ++ rest := by
  cases fuel with
  | zero => omega
  | succ f =>
    cases old with
    | nil => simp [List.isEmpty] at hne
    | cons o os =>
      have hsw : listStartsWith (o :: os) (o :: (os ++ rest)) = true := by
        have := listStartsWith_append_self (o :: os) rest
        rwa [List.cons_append] at this
      rw [List.cons_append]
      simp only [pyReplaceAux, hsw, hne, Bool.not_false, Bool.and_true, if_true]
      rw [show List.drop (o :: os).length (o :: (os ++ rest)) = rest by
            simp [List.drop_left]]
      rw [pyReplaceAux_id (o :: os) new rest f hno]

/-- C3, counterexample to the claim as stated: the parser uses Python
`str.replace`, which removes every occurrence of the marker, so the line
`"Title: A Title: B"` yields the title `"A  B"` instead of the trimmed
remainder `"A Title: B"`. -/
theorem c3_counterexample :
    parseMangaPanels ("Title: A Title: B") = [{ title := some ("A  B") }]
    ∧ pyStrip (" A Title: B") = ("A Title: B")
    ∧ (("A  B") : String) ≠ ("A Title: B") := by
  decide

/-- C3 (amended): a trimmed line beginning with `Title:` (likewise
`Description:`, `Dialogue:`) sets the corresponding field of the current
record to the line with every occurrence of the marker removed and the
result trimmed; this equals the trimmed remainder after the leading
marker exactly when the marker does not occur again in the remainder,
which is the hypothesis below.  (`c3_counterexample` shows the claim's
unconditional "preserved verbatim" reading is false.) -/
theorem c3_remainder (panels : List Panel) (current : Panel) (raw : String) (rest : List Char) :
    ((pyStrip raw).data = ("Title:").data ++ rest →
      listContainsSub (("Title:").data) rest = false →
      parseStep (panels, current) raw
        = (panels, { current with title := some (pyStrip ⟨rest⟩) }))
    ∧ ((pyStrip raw).data = ("Description:").data ++ rest →
      listContainsSub (("Description:").data) rest = false →
      parseStep (panels, current) raw
        = (panels, { current with description := some (pyStrip ⟨rest⟩) }))
    ∧ ((pyStrip raw).data = ("Dialogue:").data ++ rest →
      listContainsSub (("Dialogue:").data) rest = false →
      parseStep (panels, current) raw
        = (panels, { current with dialogue := some (pyStrip ⟨rest⟩) })) := by
  refine ⟨fun hdata hno => ?_, fun hdata hno => ?_, fun hdata hno => ?_⟩
  · have hpanel : pyStartsWith (pyStrip raw) ("[PANEL") = false := by
      rw [pyStartsWith, hdata]; rfl
    have hmatch : pyStartsWith (pyStrip raw) ("Title:") = true := by
      rw [pyStartsWith, hdata]; exact listStartsWith_append_self _ _
    have hrepl : pyReplace (pyStrip raw) ("Title:") ("") = (⟨rest⟩ : String) := by
      show (⟨pyReplaceAux _ _ _ _⟩ : String) = _
      rw [hdata]
      rw [pyReplaceAux_append_self (("Title:").data) (("").data) rest rfl hno _ (by
        simp [List.length_append])]
      rfl
    simp [parseStep, hpanel, hmatch, hrepl]
  · have hpanel : pyStartsWith (pyStrip raw) ("[PANEL") = false := by
      rw [pyStartsWith, hdata]; rfl
    have hmiss1 : pyStartsWith (pyStrip raw) ("Title:") = false := by
      rw [pyStartsWith, hdata]; rfl
    have hmatch : pyStartsWith (pyStrip raw) ("Description:") = true := by
      rw [pyStartsWith, hdata]; exact listStartsWith_append_self _ _
    have hrepl : pyReplace (pyStrip raw) ("Description:") ("") = (⟨rest⟩ : String) := by
      show (⟨pyReplaceAux _ _ _ _⟩ : String) = _
      rw [hdata]
      rw [pyReplaceAux_append_self (("Description:").data) (("").data) rest rfl hno _ (by
        simp [List.length_append])]
      rfl
    simp [parseStep, hpanel, hmiss1, hmatch, hrepl]
  · have hpanel : pyStartsWith (pyStrip raw) ("[PANEL") = false := by
      rw [pyStartsWith, hdata]; rfl
    have hmiss1 : pyStartsWith (pyStrip raw) ("Title:") = false := by
      rw [pyStartsWith, hdata]; rfl
    have hmiss2 : pyStartsWith (pyStrip raw) ("Description:") = false := by
      rw [pyStartsWith, hdata]; rfl
    have hmatch : pyStartsWith (pyStrip raw) ("Dialogue:") = true := by
      rw [pyStartsWith, hdata]; exact listStartsWith_append_self _ _
    have hrepl : pyReplace (pyStrip raw) ("Dialogue:") ("") = (⟨rest⟩ : String) := by
      show (⟨pyReplaceAux _ _ _ _⟩ : String) = _
      rw [hdata]
      rw [pyReplaceAux_append_self (("Dialogue:").data) (("").data) rest rfl hno _ (by
        simp [List.length_append])]
      rfl
    simp [parseStep, hpanel, hmiss1, hmiss2, hmatch, hrepl]

theorem c3_remainder_witness :
    parseStep ([], emptyPanel) ("Title:  A ")
      = ([], { emptyPanel with title := some (pyStrip ⟨("  A").data⟩) }) :=
  (c3_remainder [] emptyPanel ("Title:  A ") (("  A").data)).1 (by decide) (by decide)

/-! ### Python textwrap.wrap and `PanelGenerator.create_panel_image` -/

/-- Python textwrap whitespace munging for inputs without tab characters:
every whitespace character becomes a single space (`expand_tabs` would
first widen tabs to tab stops, which this model does not reproduce). -/
def mungeWhitespace (l : List Char) : List Char :=
  l.map (fun c => if pyIsSpace c then ' ' else c)

/-- Chunk splitting of Python textwrap for text without hyphen
characters: maximal runs of spaces and maximal runs of non-spaces, in
order (with `break_on_hyphens`, hyphenated words would additionally be
split after internal hyphens). -/
def chunksOf : List Char → List (List Char)
  | [] => []
  | x :: xs =>
    match chunksOf xs with
    | (y :: ys) :: cs =>
      if ((x == ' ') == (y == ' ')) then (x :: y :: ys) :: cs
      else [x] :: (y :: ys) :: cs
    | _ => [[x]]

/-- Total length of a chunk list (the `cur_len` bookkeeping of
`_wrap_chunks`). -/
def sumLen (cs : List (List Char)) : Nat :=
  (cs.map List.length).sum

/-- The `chunk.strip() == ''` test of `_wrap_chunks`: after munging, a
whitespace chunk consists of spaces only. -/
def isSpaceChunk (c : List Char) : Bool :=
  c.all (fun ch => ch == ' ')

/-- The greedy inner loop of `textwrap._wrap_chunks`: consume chunks
while they fit within `width`; returns the chunks placed on the current
line and the remaining chunks. -/
def fillLine (width : Nat) : List (List Char) → Nat → List (List Char) × List (List Char)
  | [], _ => ([], [])
  | c :: cs, curLen =>
    if curLen + c.length ≤ width then
      let r := fillLine width cs (curLen + c.length)
      (c :: r.1, r.2)
    else ([], c :: cs)

/-- The outer loop of `textwrap._wrap_chunks` with the default options
(`drop_whitespace=True`, `break_long_words=True`, no `max_lines`), for
chunks containing no hyphens.  One iteration: drop a leading whitespace
chunk when a line has already been emitted, greedily fill a line, break a
word longer than the whole width (`_handle_long_word`), drop a trailing
whitespace chunk, and emit the joined line if nonempty.  `fuel` bounds
the number of iterations; each iteration consumes at least one character
or chunk, so the wrapper's fuel suffices. -/
def wrapAux (width : Nat) : Nat → List (List Char) → List (List Char) → List (List Char)
  | 0, _, lines => lines
  | _, [], lines => lines
  | fuel + 1, chunk0 :: chunks0, lines =>
    let rem :=
      match lines with
      | _ :: _ => if isSpaceChunk chunk0 then chunks0 else chunk0 :: chunks0
      | [] => chunk0 :: chunks0
    match rem with
    | [] => lines
    | c :: cs =>
      let fill := fillLine width (c :: cs) 0
      let step :=
        match fill.2 with
        | d :: ds =>
          if width < d.length then
            let spaceLeft := if width < 1 then 1 else width - sumLen fill.1
            (fill.1 ++ [d.take spaceLeft], d.drop spaceLeft :: ds)
          else (fill.1, d :: ds)
        | [] => (fill.1, [])
      let curLine :=
        match step.1.getLast? with
        | some lastC => if isSpaceChunk lastC then step.1.dropLast else step.1
        | none => step.1
      let lines2 := if curLine.isEmpty then lines else lines ++ [curLine.foldl (· ++ ·) []]
      wrapAux width fuel step.2 lines2

/-- Python `textwrap.wrap(text, width)` with default options, modelled
for text containing no tab and no hyphen characters. -/
def pythonWrap (s : String) (width : Nat) : List String :=
  let chunks := chunksOf (mungeWhitespace s.data)
  (wrapAux width (sumLen chunks + chunks.length + 1) chunks []).map (fun l => ⟨l⟩)

/-- The dialogue callout box of `create_panel_image`: its wrapped text
lines and the computed box height `len(dialogue_lines) * 35 + 60`
(src/app/services/panel_generator.py, lines 117-135). -/
structure DialogueBoxSpec where
  textLines : List String
  height : Nat
  deriving DecidableEq, Repr

/-- Text-layout slice of `PanelGenerator.create_panel_image`
(src/app/services/panel_generator.py): the word-wrapped description
(width 80, first 8 lines drawn) and the optional dialogue callout box
(wrap width 70), drawn only when `dialogue` is truthy (`if dialogue:`,
with Python default `None`). -/
structure PanelImageSpec where
  descLines : List String
  dialogueBox : Option DialogueBoxSpec
  deriving DecidableEq, Repr

def createPanelImage (panel_number title description : String)
    (dialogue : Option String) : PanelImageSpec :=
  { descLines := (pythonWrap description 80).take 8
    dialogueBox :=
      match dialogue with
      | none => none
      | some d =>
        if d = ("") then none
        else
          some { textLines := pythonWrap d 70
                 height := (pythonWrap d 70).length * 35 + 60 } }

theorem wrapAux_nil (width fuel : Nat) (lines : List (List Char)) :
    wrapAux width fuel [] lines = lines := by
  cases fuel <;> rfl

theorem mungeWhitespace_id (l : List Char) (h : ∀ c ∈ l, pyIsSpace c = false) :
    mungeWhitespace l = l := by
  induction l with
  | nil => rfl
  | cons x xs ih =>
    have hx := h x (List.mem_cons_self x xs)
    have hxs : ∀ c ∈ xs, pyIsSpace c = false := fun c hc => h c (List.mem_cons_of_mem x hc)
    simp [mungeWhitespace, hx] at ih ⊢
    exact ih hxs

theorem beq_space_false_of_no_whitespace {l : List Char}
    (h : ∀ c ∈ l, pyIsSpace c = false) : ∀ c ∈ l, (c == ' ') = false := by
  intro c hc
  have := h c hc
  simp only [pyIsSpace, Bool.or_eq_false_iff] at this
  simpa using this.1.1.1.1.1

theorem chunksOf_single (l : List Char) (hne : l ≠ []) (h : ∀ c ∈ l, (c == ' ') = false) :
    chunksOf l = [l] := by
  induction l with
  | nil => cases hne rfl
  | cons x xs ih =>
    cases xs with
    | nil => rfl
    | cons y ys =>
      have hx : (x == ' ') = false := h x (by simp)
      have hy : (y == ' ') = false := h y (by simp)
      have hxs : ∀ c ∈ y :: ys, (c == ' ') = false := fun c hc => h c (by
        simp only [List.mem_cons] at hc ⊢
        tauto)
      rw [chunksOf, ih (by simp) hxs]
      simp [hx, hy]

theorem isSpaceChunk_eq_false {l : List Char} (hne : l ≠ [])
    (h : ∀ c ∈ l, (c == ' ') = false) : isSpaceChunk l = false := by
  cases l with
  | nil => cases hne rfl
  | cons x xs => simp [isSpaceChunk, h x (by simp)]

theorem wrapAux_twoLines (l : List Char) (f : Nat) (hlen : l.length = 140)
    (h : ∀ c ∈ l, (c == ' ') = false) :
    wrapAux 70 (f + 2) [l] [] = [l.take 70, l.drop 70] := by
  have htake_len : (l.take 70).length = 70 := by simp [hlen]
  have hdrop_len : (l.drop 70).length = 70 := by simp [hlen]
  have htake_ne : l.take 70 ≠ [] := by
    intro h0
    rw [h0] at htake_len
    simp at htake_len
  have hdrop_ne : l.drop 70 ≠ [] := by
    intro h0
    rw [h0] at hdrop_len
    simp at hdrop_len
  have htake_ns : isSpaceChunk (l.take 70) = false :=
    isSpaceChunk_eq_false htake_ne (fun c hc => h c (List.take_subset _ _ hc))
  have hdrop_ns : isSpaceChunk (l.drop 70) = false :=
    isSpaceChunk_eq_false hdrop_ne (fun c hc => h c (List.drop_subset _ _ hc))
  have hcond1 : (0 + l.length ≤ 70) = False := by simp [hlen]
  have hcond2 : (70 < l.length) = True := by simp [hlen]
  have hcond3 : ((70 : Nat) < 1) = False := by simp
  have hcond4 : (0 + (List.drop 70 l).length ≤ 70) = True := by simp [hdrop_len]
  show wrapAux 70 ((f + 1) + 1) [l] [] = _
  simp only [wrapAux, fillLine, sumLen, hcond1, hcond2, hcond3, hcond4, if_true, if_false,
    Bool.false_eq_true, Nat.sub_zero, List.map_nil, List.sum_nil, List.nil_append,
    List.append_nil, List.getLast?_singleton, htake_ns, hdrop_ns, List.isEmpty_cons,
    List.foldl_cons, List.foldl_nil, wrapAux_nil]
  rfl

set_option maxRecDepth 40000 in
/-- C9, counterexample to the claim as stated: the 140-character dialogue
made of a 60-character word, a 10-character word and a 68-character word
wraps at width 70 into 3 lines, not 2, and the callout box height is
3*35+60 = 165, not 130 (greedy word wrapping does not cut exactly at 70
for multi-word text). -/
theorem c9_counterexample :
    (List.replicate 60 'a' ++ ' ' :: List.replicate 10 'b' ++ ' ' :: List.replicate 68 'c').length = 140
    ∧ ((createPanelImage ("[PANEL 1]") ("T") ("desc")
          (some ⟨List.replicate 60 'a' ++ ' ' :: List.replicate 10 'b' ++ ' ' :: List.replicate 68 'c'⟩)).dialogueBox.map
        (fun b => (b.textLines.length, b.height))) = some (3, 165) := by
  constructor
  · decide
  · decide

/-- C9 (amended): a 140-character dialogue with no whitespace (and no
tab/hyphen, where the `textwrap` model is exact) wraps at width 70 into
exactly two lines of 70 characters each, and the callout box height is
2*35+60 = 130; in general the box height is always
`len(wrapped lines) * 35 + 60`, and the box is drawn exactly when the
dialogue is truthy (present and nonempty).  `c9_counterexample` refutes
the claim's "every 140-character dialogue wraps into 2 lines". -/
theorem c9_callout :
    (∀ d : String, d.data.length = 140 →
      (∀ c ∈ d.data, pyIsSpace c = false ∧ c ≠ '-') →
      pythonWrap d 70 = [⟨d.data.take 70⟩, ⟨d.data.drop 70⟩]
      ∧ ∀ pn ti de, (createPanelImage pn ti de (some d)).dialogueBox
          = some { textLines := [⟨d.data.take 70⟩, ⟨d.data.drop 70⟩], height := 130 })
    ∧ (∀ pn ti de (d : String), d ≠ ("") →
        (createPanelImage pn ti de (some d)).dialogueBox
          = some { textLines := pythonWrap d 70
                   height := (pythonWrap d 70).length * 35 + 60 })
    ∧ (∀ pn ti de, (createPanelImage pn ti de none).dialogueBox = none
        ∧ (createPanelImage pn ti de (some (""))).dialogueBox = none) := by
  refine ⟨?_, ?_, ?_⟩
  · intro d hlen hchar
    have hns : ∀ c ∈ d.data, pyIsSpace c = false := fun c hc => (hchar c hc).1
    have hbeq : ∀ c ∈ d.data, (c == ' ') = false := beq_space_false_of_no_whitespace hns
    have hne : d.data ≠ [] := by
      intro h0
      rw [h0] at hlen
      simp at hlen
    have hchunks : chunksOf (mungeWhitespace d.data) = [d.data] := by
      rw [mungeWhitespace_id d.data hns]
      exact chunksOf_single d.data hne hbeq
    have hwrap : pythonWrap d 70 = [⟨d.data.take 70⟩, ⟨d.data.drop 70⟩] := by
      simp only [pythonWrap, hchunks]
      rw [show sumLen [d.data] + [d.data].length + 1 = 140 + 2 by
        simp [sumLen, hlen]]
      rw [wrapAux_twoLines d.data 140 hlen hbeq]
      rfl
    have hdne : d ≠ ("") := by
      intro h0
      rw [h0] at hlen
      exact absurd hlen (by decide)
    refine ⟨hwrap, fun pn ti de => ?_⟩
    simp [createPanelImage, hdne, hwrap]
  · intro pn ti de d hdne
    simp [createPanelImage, hdne]
  · intro pn ti de
    constructor
    · rfl
    · rfl

set_option maxRecDepth 40000 in
theorem c9_callout_witness :
    (createPanelImage ("") ("") ("") (some ⟨List.replicate 140 'x'⟩)).dialogueBox
      = some { textLines := [⟨(String.mk (List.replicate 140 'x')).data.take 70⟩,
                             ⟨(String.mk (List.replicate 140 'x')).data.drop 70⟩]
               height := 130 } :=
  (c9_callout.1 ⟨List.replicate 140 'x'⟩ (by decide) (by decide)).2 ("") ("") ("")

/-! ### Storage upload conflict classification -/

/-- Outcome of an external call that may raise: `ok`, or an exception
whose Python string form is `msg`. -/
inductive UploadOutcome where
  | ok
  | raiseErr (msg : String)
  deriving DecidableEq, Repr

/-- The duplicate-upload detection of recommendations.py (line 130) and
scraper.py (line 98): the stringified error must contain `"409"`,
`"Duplicate"` (capital D) or `"already exists"`; Python `in` is
case-sensitive. -/
def isConflictError (err : String) : Bool :=
  pyContains err ("409") || pyContains err ("Duplicate") || pyContains err ("already exists")

/-! ### Decimal rendering of the figure counter -/

/-- Decimal digit character for a digit value (values above 9 do not
occur: the argument is always `n % 10`). -/
def digitChar : Nat → Char
  | 0 => '0'
  | 1 => '1'
  | 2 => '2'
  | 3 => '3'
  | 4 => '4'
  | 5 => '5'
  | 6 => '6'
  | 7 => '7'
  | 8 => '8'
  | _ => '9'

/-- Numeric value of a decimal digit character. -/
def digitVal (c : Char) : Nat :=
  if c = '0' then 0 else if c = '1' then 1 else if c = '2' then 2 else if c = '3' then 3
  else if c = '4' then 4 else if c = '5' then 5 else if c = '6' then 6 else if c = '7' then 7
  else if c = '8' then 8 else 9

/-- Decimal digits of `n`, most significant first; empty for zero.
`fuel ≥ n` guarantees enough iterations. -/
def natReprAux : Nat → Nat → List Char
  | 0, _ => []
  | _ + 1, 0 => []
  | n + 1, fuel + 1 => natReprAux ((n + 1) / 10) fuel ++ [digitChar ((n + 1) % 10)]

/-- Python `str(n)` for a natural number (the f-string rendering of
`figure_counter`). -/
def natRepr (n : Nat) : String :=
  if n = 0 then ("0") else ⟨natReprAux n n⟩

/-- Base-10 value of a digit string (used only to prove `natRepr`
injective). -/
def digitsVal (l : List Char) : Nat :=
  l.foldl (fun a c => a * 10 + digitVal c) 0

theorem digitsVal_append_digit (l : List Char) (c : Char) :
    digitsVal (l ++ [c]) = digitsVal l * 10 + digitVal c := by
  simp [digitsVal, List.foldl_append]

theorem digitVal_digitChar (d : Nat) (hd : d < 10) : digitVal (digitChar d) = d := by
  interval_cases d <;> rfl

theorem digitsVal_natReprAux : ∀ (fuel n : Nat), n ≤ fuel →
    digitsVal (natReprAux n fuel) = n := by
  intro fuel
  induction fuel with
  | zero =>
    intro n hn
    interval_cases n
    rfl
  | succ f ih =>
    intro n hn
    match n with
    | 0 => rfl
    | m + 1 =>
      have hq : (m + 1) / 10 ≤ f := by
        have := Nat.div_lt_self (Nat.succ_pos m) (by norm_num : 1 < 10)
        omega
      have hr : (m + 1) % 10 < 10 := Nat.mod_lt _ (by norm_num)
      show digitsVal (natReprAux (m + 1) (f + 1)) = m + 1
      simp only [natReprAux]
      rw [digitsVal_append_digit, ih _ hq, digitVal_digitChar _ hr]
      rw [Nat.mul_comm]
      exact Nat.div_add_mod (m + 1) 10

theorem digitsVal_natRepr (n : Nat) : digitsVal (natRepr n).data = n := by
  by_cases hn : n = 0
  · subst hn
    decide
  · show digitsVal (if n = 0 then ("0" : String) else ⟨natReprAux n n⟩).data = n
    rw [if_neg hn]
    exact digitsVal_natReprAux n n (Nat.le_refl n)

theorem natRepr_injective : Function.Injective natRepr := by
  intro a b hab
  have ha := digitsVal_natRepr a
  rw [hab, digitsVal_natRepr b] at ha
  omega

/-- The storage path computed for one figure (recommendations.py line
118): `{email}/{topic}/{date}/figure_{counter}.png`. -/
def figurePathStr (email topic date : String) (counter : Nat) : String :=
  email ++ ("/") ++ topic ++ ("/") ++ date ++ ("/figure_") ++ natRepr counter ++ (".png")

theorem figurePathStr_injective (email topic date : String) :
    Function.Injective (figurePathStr email topic date) := by
  intro a b h
  apply natRepr_injective
  have hdata := congrArg String.data h
  simp only [figurePathStr, String.data_append, List.append_assoc] at hdata
  have h1 := List.append_cancel_left hdata
  have h2 := List.append_cancel_left h1
  have h3 := List.append_cancel_left h2
  have h4 := List.append_cancel_left h3
  have h5 := List.append_cancel_left h4
  have h6 := List.append_cancel_left h5
  have h7 := List.append_cancel_right h6
  exact String.ext h7

/-! ### The metadata store (src/app/db/supabase.py) -/

/-- A row of the `recommendation_requests` table. -/
structure ReqRecord where
  rid : Nat
  email : String
  topic : String
  file_name : String
  title : Option String
  authors : Option String
  deriving DecidableEq, Repr

/-- A row of the `recommendation_pairings` table (the opaque
`reducto_data` column is omitted: no claim concerns it). -/
structure PairRecord where
  request_id : Nat
  figure_content : String
  image_path : String
  deriving DecidableEq, Repr

/-- The relational store slice used by the pipeline: the two tables and
the id sequence for inserted requests. -/
structure DBState where
  requests : List ReqRecord
  pairings : List PairRecord
  nextId : Nat
  deriving DecidableEq, Repr

/-- The `(email, topic, file_name)` equality filter used by
`check_file_already_processed` and `delete_existing_recommendation`. -/
def keyMatches (email topic file_name : String) (r : ReqRecord) : Bool :=
  r.email = email && r.topic = topic && r.file_name = file_name

/-- `SupabaseDB.check_file_already_processed`: whether a request row with
this key exists (`len(result.data) > 0`). -/
def checkFileAlreadyProcessed (db : DBState) (email topic file_name : String) : Bool :=
  !((db.requests.filter (keyMatches email topic file_name)).isEmpty)

/-- `SupabaseDB.delete_existing_recommendation`: delete the request rows
with this key; the store's foreign key cascades to their pairings (the
code's doc string: "cascade will delete pairings"). -/
def deleteExistingRecommendation (db : DBState) (email topic file_name : String) : DBState :=
  let victims := db.requests.filter (keyMatches email topic file_name)
  { requests := db.requests.filter (fun r => !(keyMatches email topic file_name r))
    pairings := db.pairings.filter (fun p => !(victims.any (fun r => r.rid = p.request_id)))
    nextId := db.nextId }

/-- `SupabaseDB.insert_recommendation_request`: insert one request row
and return the store-generated id. -/
def insertRecommendationRequest (db : DBState) (email topic file_name : String)
    (title authors : Option String) : Nat × DBState :=
  (db.nextId,
   { requests := db.requests ++ [⟨db.nextId, email, topic, file_name, title, authors⟩]
     pairings := db.pairings
     nextId := db.nextId + 1 })

/-- `SupabaseDB.insert_recommendation_pairings`: insert one pairing row
per `(figure_content, image_path)` entry, all owned by `request_id`. -/
def insertRecommendationPairings (db : DBState) (request_id : Nat)
    (pairs : List (String × String)) : DBState :=
  { db with pairings := db.pairings ++ pairs.map (fun pr => ⟨request_id, pr.1, pr.2⟩) }

/-- Number of live request rows for a key. -/
def countKey (db : DBState) (email topic file_name : String) : Nat :=
  (db.requests.filter (keyMatches email topic file_name)).length

/-! ### `create_recommendation` (src/app/routers/recommendations.py) -/

/-- External outcomes for one extracted figure: the storage upload may
succeed or raise, and the `get_public_url` call may raise. -/
structure FigSpec where
  figure_content : String
  upload : UploadOutcome
  urlRaises : Bool
  deriving DecidableEq, Repr

/-- Result of the per-figure loop body (recommendations.py lines
115-155): the entry appended to `db_pairings`, the entry appended to
`response_pairings`, the storage path the figure was assigned (line
118), and the counter after the iteration. -/
structure FigResult where
  dbPairing : Option (String × String)
  respPairing : Option (String × String)
  assignedPath : String
  nextCounter : Nat
  deriving DecidableEq, Repr

/-- One iteration of the figure loop: an upload error classified as a
conflict is treated as "already uploaded, use existing" and processing
continues; any other upload error re-raises into the per-figure handler,
which skips the figure; `figure_counter` is incremented on the success
path and in the per-figure handler alike. -/
def figureStep (getUrl : String → String) (email topic date : String)
    (counter : Nat) (fig : FigSpec) : FigResult :=
  let image_path := figurePathStr email topic date counter
  let uploadUsable :=
    match fig.upload with
    | .ok => true
    | .raiseErr msg => isConflictError msg
  if uploadUsable then
    if fig.urlRaises then
      { dbPairing := some (fig.figure_content, image_path)
        respPairing := none
        assignedPath := image_path
        nextCounter := counter + 1 }
    else
      { dbPairing := some (fig.figure_content, image_path)
        respPairing := some (fig.figure_content, getUrl image_path)
        assignedPath := image_path
        nextCounter := counter + 1 }
  else
    { dbPairing := none
      respPairing := none
      assignedPath := image_path
      nextCounter := counter + 1 }

/-- The figure loop over one file's extracted figures: returns the final
counter, the accumulated `db_pairings`, the accumulated
`response_pairings`, and the assigned storage paths in order. -/
def figuresLoop (getUrl : String → String) (email topic date : String) :
    Nat → List FigSpec → Nat × List (String × String) × List (String × String) × List String
  | counter, [] => (counter, [], [], [])
  | counter, fig :: figs =>
    let r := figureStep getUrl email topic date counter fig
    let rest := figuresLoop getUrl email topic date r.nextCounter figs
    (rest.1,
     r.dbPairing.toList ++ rest.2.1,
     r.respPairing.toList ++ rest.2.2.1,
     r.assignedPath :: rest.2.2.2)

/-- External outcomes for one listed PDF: the download or the Reducto
call may raise; a successful parse yields title/authors and the figure
specs, and the two insert calls may raise. -/
inductive FileProc where
  | downloadRaise (msg : String)
  | reductoRaise (msg : String)
  | parsed (title authors : Option String) (figs : List FigSpec)
      (insertReqRaises : Bool) (insertPairingsRaises : Bool)
  deriving DecidableEq, Repr

/-- One listed PDF file together with the outcomes of the external calls
made while processing it. -/
structure FileSpec where
  path : String
  proc : FileProc
  deriving DecidableEq, Repr

/-- The `FigurePairing` response model (schemas.py lines 34-37). -/
structure FigurePairingResp where
  figure_content : String
  image_url : String
  deriving DecidableEq, Repr

/-- The `FileRecommendation` response model (schemas.py lines 40-44);
`created_at` is the `datetime.now()` value. -/
structure FileRec where
  file_name : String
  created_at : String
  pairings : List FigurePairingResp
  deriving DecidableEq, Repr

/-- Accumulated state of one `create_recommendation` run: the store, the
figure counter, the `file_recommendations` list, and (for the path
uniqueness claim) the list of figure paths assigned so far. -/
structure RunState where
  db : DBState
  counter : Nat
  recs : List FileRec
  assignedPaths : List String
  deriving DecidableEq, Repr

/-- One iteration of the file loop of `create_recommendation`
(recommendations.py lines 51-179): check-and-delete of prior records,
download, Reducto parse, request insert, figure loop, pairings insert,
and append of the response record; every failure is a `continue` that
leaves the remaining state unchanged. -/
def processFile (getUrl : String → String) (email topic date now : String)
    (st : RunState) (file : FileSpec) : RunState :=
  let already := checkFileAlreadyProcessed st.db email topic file.path
  let db1 := if already then deleteExistingRecommendation st.db email topic file.path else st.db
  match file.proc with
  | .downloadRaise _ => { st with db := db1 }
  | .reductoRaise _ => { st with db := db1 }
  | .parsed title authors figs insertReqRaises insertPairingsRaises =>
    if figs.isEmpty then { st with db := db1 }
    else if insertReqRaises then { st with db := db1 }
    else
      let ins := insertRecommendationRequest db1 email topic file.path title authors
      let loop := figuresLoop getUrl email topic date st.counter figs
      let rec1 : FileRec :=
        { file_name := file.path
          created_at := now
          pairings := loop.2.2.1.map (fun pr => ⟨pr.1, pr.2⟩) }
      if loop.2.1.isEmpty then
        { db := ins.2, counter := loop.1, recs := st.recs ++ [rec1]
          assignedPaths := st.assignedPaths ++ loop.2.2.2 }
      else if insertPairingsRaises then
        { db := ins.2, counter := loop.1, recs := st.recs
          assignedPaths := st.assignedPaths ++ loop.2.2.2 }
      else
        { db := insertRecommendationPairings ins.2 ins.1 loop.2.1
          counter := loop.1, recs := st.recs ++ [rec1]
          assignedPaths := st.assignedPaths ++ loop.2.2.2 }

/-- The `RecommendationResponse` schema (schemas.py lines 47-53): note
that it has no field in which an error could be recorded. -/
structure RecResponse where
  email : String
  topic : String
  date : String
  total_files_processed : Nat
  files : List FileRec
  deriving DecidableEq, Repr

/-- Shallow embedding of the `create_recommendation` endpoint
(src/app/routers/recommendations.py): HTTP 404 when the listing is
empty, processing of the first `max_files` files, HTTP 500 when no file
succeeded.  Returns the HTTP result together with the final run state;
`now` stands for `datetime.now()` and `getUrl` for
`supabase_db.get_public_url`. -/
def createRecommendation (getUrl : String → String) (email topic date now : String)
    (maxFiles : Nat) (listing : List FileSpec) (db0 : DBState) :
    Except Nat RecResponse × RunState :=
  let st0 : RunState := { db := db0, counter := 1, recs := [], assignedPaths := [] }
  if listing.isEmpty then (.error 404, st0)
  else
    let final := (listing.take maxFiles).foldl (processFile getUrl email topic date now) st0
    if final.recs.isEmpty then (.error 500, final)
    else
      (.ok { email := email, topic := topic, date := date
             total_files_processed := final.recs.length
             files := final.recs },
       final)

/-- Per-link upload handling of `scrape_and_upload`
(src/app/routers/scraper.py lines 75-110): a conflict-classified upload
error still records the path in `uploaded_files`; any other error lands
in `errors` and the file is not recorded. -/
def scrapeUploadStep (pdf_url file_path : String) (upload : UploadOutcome) :
    Option String × Option String :=
  match upload with
  | .ok => (some file_path, none)
  | .raiseErr msg =>
    if isConflictError msg then (some file_path, none)
    else (none, some (("Failed to process ") ++ pdf_url ++ (": ") ++ msg))

/-- C5, counterexample to the claim as stated: an upload error whose
message contains `"duplicate"` in lower case (as real unique-constraint
messages do) is not classified as a conflict by the code, which matches
`"Duplicate"` case-sensitively: the figure is skipped with no recorded
path or URL, and the scraper records an error instead of the path. -/
theorem c5_counterexample :
    pyContains ("duplicate key value violates unique constraint") ("duplicate") = true
    ∧ isConflictError ("duplicate key value violates unique constraint") = false
    ∧ (figureStep (fun p => p) ("e") ("t") ("d") 1
        { figure_content := ("fig")
          upload := .raiseErr ("duplicate key value violates unique constraint")
          urlRaises := false }).dbPairing = none
    ∧ (figureStep (fun p => p) ("e") ("t") ("d") 1
        { figure_content := ("fig")
          upload := .raiseErr ("duplicate key value violates unique constraint")
          urlRaises := false }).respPairing = none
    ∧ (scrapeUploadStep ("u") ("f")
        (.raiseErr ("duplicate key value violates unique constraint"))).1 = none := by
  refine ⟨by decide, by decide, by decide, by decide, by decide⟩

/-- C5 (amended): whenever the upload error is classified as a conflict
by the code's predicate — message containing `"409"`, `"Duplicate"`
(capitalised) or `"already exists"` — the operation does not fail: the
figure is processed exactly as a successful upload, recorded under its
intended path with a public URL, and the scraper still records the file
path with no error.  (`c5_counterexample` shows the claim's lowercase
`"duplicate"` is not part of the classification.) -/
theorem c5_conflict_reuse (msg : String) (hmsg : isConflictError msg = true)
    (getUrl : String → String) (email topic date : String) (counter : Nat)
    (content pdf_url file_path : String) :
    figureStep getUrl email topic date counter ⟨content, .raiseErr msg, false⟩
      = figureStep getUrl email topic date counter ⟨content, .ok, false⟩
    ∧ (figureStep getUrl email topic date counter ⟨content, .raiseErr msg, false⟩).dbPairing
        = some (content, figurePathStr email topic date counter)
    ∧ (figureStep getUrl email topic date counter ⟨content, .raiseErr msg, false⟩).respPairing
        = some (content, getUrl (figurePathStr email topic date counter))
    ∧ scrapeUploadStep pdf_url file_path (.raiseErr msg) = (some file_path, none) := by
  refine ⟨?_, ?_, ?_, ?_⟩ <;> simp [figureStep, scrapeUploadStep, hmsg]

theorem c5_conflict_reuse_witness :
    isConflictError ("409 Conflict") = true
    ∧ scrapeUploadStep ("u") ("f") (.raiseErr ("409 Conflict")) = (some ("f"), none) :=
  ⟨by decide,
   (c5_conflict_reuse ("409 Conflict") (by decide) (fun p => p) ("e") ("t") ("d") 1
     ("c") ("u") ("f")).2.2.2⟩

theorem countKey_delete (db : DBState) (email topic file_name : String) :
    countKey (deleteExistingRecommendation db email topic file_name) email topic file_name = 0 := by
  simp only [countKey, deleteExistingRecommendation, List.filter_filter]
  simp [List.filter_eq_nil_iff]

theorem countKey_zero_of_check_false (db : DBState) (email topic file_name : String)
    (h : checkFileAlreadyProcessed db email topic file_name = false) :
    countKey db email topic file_name = 0 := by
  simp only [checkFileAlreadyProcessed, Bool.not_eq_false'] at h
  rw [List.isEmpty_iff] at h
  simp [countKey, h]

/-- After the check-and-delete step there is no live request row for the
key, whether or not one existed before. -/
theorem countKey_db1 (db : DBState) (email topic file_name : String) :
    countKey (if checkFileAlreadyProcessed db email topic file_name then
                deleteExistingRecommendation db email topic file_name
              else db) email topic file_name = 0 := by
  by_cases h : checkFileAlreadyProcessed db email topic file_name = true
  · simp [h, countKey_delete]
  · simp only [Bool.not_eq_true] at h
    simp [h, countKey_zero_of_check_false db email topic file_name h]

theorem keyMatches_self (email topic file_name : String) (rid : Nat) (ti au : Option String) :
    keyMatches email topic file_name ⟨rid, email, topic, file_name, ti, au⟩ = true := by
  simp [keyMatches]

theorem countKey_insert (db : DBState) (email topic file_name : String) (ti au : Option String) :
    countKey (insertRecommendationRequest db email topic file_name ti au).2 email topic file_name
      = countKey db email topic file_name + 1 := by
  simp [countKey, insertRecommendationRequest, List.filter_append, keyMatches_self]

theorem nextId_db1 (db : DBState) (email topic file_name : String) :
    (if checkFileAlreadyProcessed db email topic file_name then
       deleteExistingRecommendation db email topic file_name
     else db).nextId = db.nextId := by
  by_cases h : checkFileAlreadyProcessed db email topic file_name = true
  · simp [h, deleteExistingRecommendation]
  · simp only [Bool.not_eq_true] at h
    simp [h]

/-- After check-and-delete, no surviving pairing row references a
pre-existing request row of the key. -/
theorem db1_pairings_safe (db : DBState) (email topic file_name : String) :
    ∀ p ∈ (if checkFileAlreadyProcessed db email topic file_name then
             deleteExistingRecommendation db email topic file_name
           else db).pairings,
      ∀ r ∈ db.requests, keyMatches email topic file_name r = true → p.request_id ≠ r.rid := by
  by_cases h : checkFileAlreadyProcessed db email topic file_name = true
  · simp only [h, if_true]
    intro p hp r hr hk
    simp only [deleteExistingRecommendation, List.mem_filter] at hp
    have hno := hp.2
    simp only [Bool.not_eq_true', List.any_eq_false] at hno
    have hrv : r ∈ db.requests.filter (keyMatches email topic file_name) :=
      List.mem_filter.2 ⟨hr, hk⟩
    intro heq
    exact absurd (by simpa using (hno r hrv)) (by simp [heq])
  · simp only [Bool.not_eq_true] at h
    intro p hp r hr hk
    exfalso
    simp only [checkFileAlreadyProcessed, Bool.not_eq_false'] at h
    rw [List.isEmpty_iff] at h
    have : r ∈ db.requests.filter (keyMatches email topic file_name) :=
      List.mem_filter.2 ⟨hr, hk⟩
    rw [h] at this
    simp at this

/-- C4: the per-file body of `create_recommendation` deletes any prior
request rows for `(email, topic, file_name)` (cascading to their
pairings) before inserting the new one.  Afterwards at most one live
request row exists for the key — never two — and exactly one when the
run reaches a successful insert (Reducto parsed at least one figure and
the request insert call did not raise); no pairing row references a
pre-existing request row of the key when ids are fresh. -/
theorem c4_delete_then_insert (getUrl : String → String) (email topic date now : String)
    (st : RunState) (file : FileSpec) :
    countKey (processFile getUrl email topic date now st file).db email topic file.path ≤ 1
    ∧ (∀ title authors figs ipr,
        file.proc = FileProc.parsed title authors figs false ipr →
        figs ≠ [] →
        countKey (processFile getUrl email topic date now st file).db email topic file.path = 1)
    ∧ ((∀ r ∈ st.db.requests, r.rid < st.db.nextId) →
        ∀ p ∈ (processFile getUrl email topic date now st file).db.pairings,
          ∀ r ∈ st.db.requests, keyMatches email topic file.path r = true →
            p.request_id ≠ r.rid) := by
  rcases file with ⟨path, proc⟩
  simp only
  cases proc with
  | downloadRaise msg =>
    refine ⟨?_, ?_, ?_⟩
    · simpa [processFile] using Nat.le_trans (Nat.le_of_eq (countKey_db1 st.db email topic path)) (Nat.zero_le 1)
    · intro _ _ _ _ h
      cases h
    · intro _ p hp
      exact db1_pairings_safe st.db email topic path p (by simpa [processFile] using hp)
  | reductoRaise msg =>
    refine ⟨?_, ?_, ?_⟩
    · simpa [processFile] using Nat.le_trans (Nat.le_of_eq (countKey_db1 st.db email topic path)) (Nat.zero_le 1)
    · intro _ _ _ _ h
      cases h
    · intro _ p hp
      exact db1_pairings_safe st.db email topic path p (by simpa [processFile] using hp)
  | parsed ti au figs irr ipr =>
    by_cases hfigs : figs.isEmpty = true
    · refine ⟨?_, ?_, ?_⟩
      · simpa [processFile, hfigs] using Nat.le_trans (Nat.le_of_eq (countKey_db1 st.db email topic path)) (Nat.zero_le 1)
      · intro _ _ figs2 _ h hne
        cases h
        rw [List.isEmpty_iff] at hfigs
        exact absurd hfigs hne
      · intro _ p hp
        exact db1_pairings_safe st.db email topic path p (by simpa [processFile, hfigs] using hp)
    · by_cases hirr : irr = true
      · refine ⟨?_, ?_, ?_⟩
        · simpa [processFile, hfigs, hirr] using Nat.le_trans (Nat.le_of_eq (countKey_db1 st.db email topic path)) (Nat.zero_le 1)
        · intro _ _ _ _ h
          cases h
          cases hirr
        · intro _ p hp
          exact db1_pairings_safe st.db email topic path p
            (by simpa [processFile, hfigs, hirr] using hp)
      · simp only [Bool.not_eq_true] at hirr
        subst hirr
        have hcount1 :
            countKey (insertRecommendationRequest
              (if checkFileAlreadyProcessed st.db email topic path then
                 deleteExistingRecommendation st.db email topic path
               else st.db) email topic path ti au).2 email topic path = 1 := by
          rw [countKey_insert, countKey_db1]
        have hsafe2 :
            (∀ r ∈ st.db.requests, r.rid < st.db.nextId) →
            ∀ p ∈ (insertRecommendationPairings
                (insertRecommendationRequest
                  (if checkFileAlreadyProcessed st.db email topic path then
                     deleteExistingRecommendation st.db email topic path
                   else st.db) email topic path ti au).2
                (insertRecommendationRequest
                  (if checkFileAlreadyProcessed st.db email topic path then
                     deleteExistingRecommendation st.db email topic path
                   else st.db) email topic path ti au).1
                (figuresLoop getUrl email topic date st.counter figs).2.1).pairings,
              ∀ r ∈ st.db.requests, keyMatches email topic path r = true →
                p.request_id ≠ r.rid := by
          intro hfresh p hp r hr hk
          simp only [insertRecommendationPairings, insertRecommendationRequest,
            List.mem_append] at hp
          rcases hp with hp | hp
          · exact db1_pairings_safe st.db email topic path p hp r hr hk
          · simp only [List.mem_map] at hp
            rcases hp with ⟨pr, _, hpr⟩
            have hid : p.request_id
                = (if checkFileAlreadyProcessed st.db email topic path then
                     deleteExistingRecommendation st.db email topic path
                   else st.db).nextId := by
              rw [← hpr]
            rw [hid, nextId_db1]
            have := hfresh r hr
            omega
        refine ⟨?_, ?_, ?_⟩
        · by_cases hdb : (figuresLoop getUrl email topic date st.counter figs).2.1.isEmpty = true
          · simp only [processFile, hfigs, Bool.false_eq_true, if_false, hdb, if_true]
            exact Nat.le_trans (Nat.le_of_eq hcount1) (Nat.le_refl 1)
          · simp only [Bool.not_eq_true] at hdb
            by_cases hipr : ipr = true
            · simp only [processFile, hfigs, Bool.false_eq_true, if_false, hdb, hipr, if_true]
              exact Nat.le_trans (Nat.le_of_eq hcount1) (Nat.le_refl 1)
            · simp only [Bool.not_eq_true] at hipr
              simp only [processFile, hfigs, Bool.false_eq_true, if_false, hdb, hipr]
              exact Nat.le_trans (Nat.le_of_eq hcount1) (Nat.le_refl 1)
        · intro _ _ _ _ h _
          cases h
          by_cases hdb : (figuresLoop getUrl email topic date st.counter figs).2.1.isEmpty = true
          · simp only [processFile, hfigs, Bool.false_eq_true, if_false, hdb, if_true]
            exact hcount1
          · simp only [Bool.not_eq_true] at hdb
            by_cases hipr2 : ipr = true
            · simp only [processFile, hfigs, Bool.false_eq_true, if_false, hdb, hipr2, if_true]
              exact hcount1
            · simp only [Bool.not_eq_true] at hipr2
              simp only [processFile, hfigs, Bool.false_eq_true, if_false, hdb, hipr2]
              exact hcount1
        · intro hfresh p hp r hr hk
          by_cases hdb : (figuresLoop getUrl email topic date st.counter figs).2.1.isEmpty = true
          · simp only [processFile, hfigs, Bool.false_eq_true, if_false, hdb, if_true] at hp
            exact db1_pairings_safe st.db email topic path p hp r hr hk
          · simp only [Bool.not_eq_true] at hdb
            by_cases hipr : ipr = true
            · simp only [processFile, hfigs, Bool.false_eq_true, if_false, hdb, hipr,
                if_true] at hp
              exact db1_pairings_safe st.db email topic path p hp r hr hk
            · simp only [Bool.not_eq_true] at hipr
              simp only [processFile, hfigs, Bool.false_eq_true, if_false, hdb, hipr] at hp
              exact hsafe2 hfresh p hp r hr hk

theorem c4_delete_then_insert_witness :
    countKey (processFile (fun p => p) ("e") ("t") ("d") ("now")
      { db := { requests := [⟨0, ("e"), ("t"), ("f"), none, none⟩]
                pairings := [⟨0, ("c"), ("old.png")⟩]
                nextId := 1 }
        counter := 1, recs := [], assignedPaths := [] }
      { path := ("f"), proc := .parsed none none [⟨("c"), .ok, false⟩] false false }).db
      ("e") ("t") ("f") = 1 :=
  (c4_delete_then_insert (fun p => p) ("e") ("t") ("d") ("now")
      { db := { requests := [⟨0, ("e"), ("t"), ("f"), none, none⟩]
                pairings := [⟨0, ("c"), ("old.png")⟩]
                nextId := 1 }
        counter := 1, recs := [], assignedPaths := [] }
      { path := ("f"), proc := .parsed none none [⟨("c"), .ok, false⟩] false false }).2.1
    none none [⟨("c"), .ok, false⟩] false rfl (by decide)

theorem figureStep_counter_path (getUrl : String → String) (email topic date : String)
    (counter : Nat) (fig : FigSpec) :
    (figureStep getUrl email topic date counter fig).nextCounter = counter + 1
    ∧ (figureStep getUrl email topic date counter fig).assignedPath
        = figurePathStr email topic date counter := by
  rcases fig with ⟨c, u, r⟩
  cases u with
  | ok => cases r <;> simp [figureStep]
  | raiseErr msg =>
    cases r <;> by_cases hmsg : isConflictError msg = true <;> simp [figureStep, hmsg]

theorem figuresLoop_spec (getUrl : String → String) (email topic date : String) :
    ∀ (figs : List FigSpec) (counter : Nat),
      (figuresLoop getUrl email topic date counter figs).1 = counter + figs.length
      ∧ (figuresLoop getUrl email topic date counter figs).2.2.2
          = (List.range' counter figs.length).map (figurePathStr email topic date) := by
  intro figs
  induction figs with
  | nil =>
    intro counter
    simp [figuresLoop]
  | cons fig figs ih =>
    intro counter
    have hstep := figureStep_counter_path getUrl email topic date counter fig
    have hrec := ih (counter + 1)
    simp only [figuresLoop, hstep.1, hstep.2]
    constructor
    · rw [hrec.1]
      simp only [List.length_cons]
      omega
    · rw [hrec.2, List.length_cons, List.range'_succ]
      simp

theorem processFile_assigned (getUrl : String → String) (email topic date now : String)
    (st : RunState) (file : FileSpec) :
    ∃ k, (processFile getUrl email topic date now st file).counter = st.counter + k
      ∧ (processFile getUrl email topic date now st file).assignedPaths
          = st.assignedPaths ++ (List.range' st.counter k).map (figurePathStr email topic date) := by
  rcases file with ⟨path, proc⟩
  cases proc with
  | downloadRaise msg =>
    exact ⟨0, by simp [processFile], by simp [processFile]⟩
  | reductoRaise msg =>
    exact ⟨0, by simp [processFile], by simp [processFile]⟩
  | parsed ti au figs irr ipr =>
    by_cases hfigs : figs.isEmpty = true
    · exact ⟨0, by simp [processFile, hfigs], by simp [processFile, hfigs]⟩
    · by_cases hirr : irr = true
      · exact ⟨0, by simp [processFile, hfigs, hirr], by simp [processFile, hfigs, hirr]⟩
      · simp only [Bool.not_eq_true] at hirr
        subst hirr
        have hloop := figuresLoop_spec getUrl email topic date figs st.counter
        refine ⟨figs.length, ?_, ?_⟩
        · by_cases hdb : (figuresLoop getUrl email topic date st.counter figs).2.1.isEmpty = true
          · simp only [processFile, hfigs, Bool.false_eq_true, if_false, hdb, if_true]
            exact hloop.1
          · simp only [Bool.not_eq_true] at hdb
            by_cases hipr : ipr = true
            · simp only [processFile, hfigs, Bool.false_eq_true, if_false, hdb, hipr, if_true]
              exact hloop.1
            · simp only [Bool.not_eq_true] at hipr
              simp only [processFile, hfigs, Bool.false_eq_true, if_false, hdb, hipr]
              exact hloop.1
        · by_cases hdb : (figuresLoop getUrl email topic date st.counter figs).2.1.isEmpty = true
          · simp only [processFile, hfigs, Bool.false_eq_true, if_false, hdb, if_true]
            rw [hloop.2]
          · simp only [Bool.not_eq_true] at hdb
            by_cases hipr : ipr = true
            · simp only [processFile, hfigs, Bool.false_eq_true, if_false, hdb, hipr, if_true]
              rw [hloop.2]
            · simp only [Bool.not_eq_true] at hipr
              simp only [processFile, hfigs, Bool.false_eq_true, if_false, hdb, hipr]
              rw [hloop.2]

theorem foldl_processFile_assigned (getUrl : String → String) (email topic date now : String) :
    ∀ (files : List FileSpec) (st : RunState) (n : Nat),
      st.counter = 1 + n →
      st.assignedPaths = (List.range' 1 n).map (figurePathStr email topic date) →
      ∃ m, (files.foldl (processFile getUrl email topic date now) st).counter = 1 + m
        ∧ (files.foldl (processFile getUrl email topic date now) st).assignedPaths
            = (List.range' 1 m).map (figurePathStr email topic date) := by
  intro files
  induction files with
  | nil =>
    intro st n h1 h2
    exact ⟨n, h1, h2⟩
  | cons f fs ih =>
    intro st n h1 h2
    obtain ⟨k, hk1, hk2⟩ := processFile_assigned getUrl email topic date now st f
    refine ih (processFile getUrl email topic date now st f) (n + k) ?_ ?_
    · rw [hk1, h1]
      omega
    · rw [hk2, h2, h1]
      rw [← List.map_append]
      congr 1
      have := List.range'_append 1 n k 1
      simp only [Nat.one_mul] at this
      rw [Nat.add_comm n k, ← this]

/-- C6: `figure_counter` starts at 1 and is incremented exactly once per
figure attempted, on the success path and the per-figure failure path
alike, so within one `create_recommendation` run the assigned
`figure_{n}.png` paths are `figure_1 .. figure_n` in order and pairwise
distinct — no two figures share a path. -/
theorem c6_figure_counter :
    (∀ (getUrl : String → String) (email topic date : String) (counter : Nat) (fig : FigSpec),
        (figureStep getUrl email topic date counter fig).nextCounter = counter + 1)
    ∧ ∀ (getUrl : String → String) (email topic date now : String) (maxFiles : Nat)
        (listing : List FileSpec) (db0 : DBState),
        ∃ n,
          (createRecommendation getUrl email topic date now maxFiles listing db0).2.counter = 1 + n
          ∧ (createRecommendation getUrl email topic date now maxFiles listing db0).2.assignedPaths
              = (List.range' 1 n).map (figurePathStr email topic date)
          ∧ (createRecommendation getUrl email topic date now maxFiles listing db0).2.assignedPaths.Nodup := by
  constructor
  · intro getUrl email topic date counter fig
    exact (figureStep_counter_path getUrl email topic date counter fig).1
  · intro getUrl email topic date now maxFiles listing db0
    by_cases hl : listing.isEmpty = true
    · exact ⟨0, by simp [createRecommendation, hl], by simp [createRecommendation, hl],
        by simp [createRecommendation, hl]⟩
    · have hsnd : (createRecommendation getUrl email topic date now maxFiles listing db0).2
          = (listing.take maxFiles).foldl (processFile getUrl email topic date now)
              { db := db0, counter := 1, recs := [], assignedPaths := [] } := by
        simp only [createRecommendation, hl, Bool.false_eq_true, if_false]
        split <;> rfl
      obtain ⟨m, hm1, hm2⟩ := foldl_processFile_assigned getUrl email topic date now
        (listing.take maxFiles) { db := db0, counter := 1, recs := [], assignedPaths := [] }
        0 rfl (by simp)
      refine ⟨m, ?_, ?_, ?_⟩
      · rw [hsnd]
        exact hm1
      · rw [hsnd]
        exact hm2
      · rw [hsnd, hm2]
        exact (List.nodup_range' 1 m).map (figurePathStr_injective email topic date)

theorem processFile_reductoRaise (getUrl : String → String) (email topic date now : String)
    (st : RunState) (path msg : String) :
    (processFile getUrl email topic date now st ⟨path, .reductoRaise msg⟩).counter = st.counter
    ∧ (processFile getUrl email topic date now st ⟨path, .reductoRaise msg⟩).recs = st.recs
    ∧ (processFile getUrl email topic date now st ⟨path, .reductoRaise msg⟩).assignedPaths
        = st.assignedPaths := by
  refine ⟨?_, ?_, ?_⟩ <;> simp [processFile]

/-- The response-relevant components of the per-file step do not depend
on the store state: two run states agreeing on counter and
recommendations keep agreeing after processing the same file. -/
theorem processFile_counter_recs (getUrl : String → String) (email topic date now : String)
    (file : FileSpec) (st st' : RunState)
    (hc : st.counter = st'.counter) (hr : st.recs = st'.recs) :
    (processFile getUrl email topic date now st file).counter
      = (processFile getUrl email topic date now st' file).counter
    ∧ (processFile getUrl email topic date now st file).recs
        = (processFile getUrl email topic date now st' file).recs := by
  rcases file with ⟨path, proc⟩
  cases proc with
  | downloadRaise m =>
    refine ⟨?_, ?_⟩ <;> simp [processFile, hc, hr]
  | reductoRaise m =>
    refine ⟨?_, ?_⟩ <;> simp [processFile, hc, hr]
  | parsed ti au figs irr ipr =>
    by_cases hfigs : figs.isEmpty = true
    · refine ⟨?_, ?_⟩ <;> simp [processFile, hfigs, hc, hr]
    · by_cases hirr : irr = true
      · refine ⟨?_, ?_⟩ <;> simp [processFile, hfigs, hirr, hc, hr]
      · simp only [Bool.not_eq_true] at hirr
        subst hirr
        by_cases hdb : (figuresLoop getUrl email topic date st.counter figs).2.1.isEmpty = true
        · have hdb' : (figuresLoop getUrl email topic date st'.counter figs).2.1.isEmpty = true := by
            rw [← hc]
            exact hdb
          refine ⟨?_, ?_⟩ <;>
            simp [processFile, hfigs, hdb, hdb', hc, hr]
        · simp only [Bool.not_eq_true] at hdb
          have hdb' : (figuresLoop getUrl email topic date st'.counter figs).2.1.isEmpty = false := by
            rw [← hc]
            exact hdb
          by_cases hipr : ipr = true
          · refine ⟨?_, ?_⟩ <;>
              simp [processFile, hfigs, hdb, hdb', hipr, hc, hr]
          · simp only [Bool.not_eq_true] at hipr
            refine ⟨?_, ?_⟩ <;>
              simp [processFile, hfigs, hdb, hdb', hipr, hc, hr]

/-- A file whose Reducto parse succeeded with at least one figure and
whose insert calls do not raise always contributes exactly one response
record, named after the file. -/
theorem processFile_parsed_recs (getUrl : String → String) (email topic date now : String)
    (st : RunState) (path : String) (ti au : Option String) (figs : List FigSpec)
    (h : figs ≠ []) :
    ∃ ps, (processFile getUrl email topic date now st
        ⟨path, .parsed ti au figs false false⟩).recs
      = st.recs ++ [{ file_name := path, created_at := now, pairings := ps }] := by
  have hfigs : figs.isEmpty = false := by
    cases figs
    · cases h rfl
    · rfl
  refine ⟨(figuresLoop getUrl email topic date st.counter figs).2.2.1.map
    (fun pr => ⟨pr.1, pr.2⟩), ?_⟩
  by_cases hdb : (figuresLoop getUrl email topic date st.counter figs).2.1.isEmpty = true
  · simp [processFile, hfigs, hdb]
  · simp only [Bool.not_eq_true] at hdb
    simp [processFile, hfigs, hdb]

/-- C8 (amended): in a `create_recommendation` run over three documents
where the Reducto call fails for document 2 only (documents 1 and 3
parse with at least one figure and their inserts succeed), the response
still contains the records for documents 1 and 3 in order and document 2
is absent — but the failure is not recorded in the returned result: the
response is identical to that of a run in which document 2 never
appeared (`RecommendationResponse` has no error field;
`c8_counterexample` exhibits this on concrete data). -/
theorem c8_partial_batch (getUrl : String → String) (email topic date now : String)
    (db0 : DBState) (p1 p2 p3 msg : String) (t1 a1 : Option String) (figs1 : List FigSpec)
    (t3 a3 : Option String) (figs3 : List FigSpec)
    (h1 : figs1 ≠ []) (h3 : figs3 ≠ []) :
    (createRecommendation getUrl email topic date now 3
        [⟨p1, .parsed t1 a1 figs1 false false⟩, ⟨p2, .reductoRaise msg⟩,
         ⟨p3, .parsed t3 a3 figs3 false false⟩] db0).1
      = (createRecommendation getUrl email topic date now 3
          [⟨p1, .parsed t1 a1 figs1 false false⟩,
           ⟨p3, .parsed t3 a3 figs3 false false⟩] db0).1
    ∧ ∃ r, (createRecommendation getUrl email topic date now 3
        [⟨p1, .parsed t1 a1 figs1 false false⟩, ⟨p2, .reductoRaise msg⟩,
         ⟨p3, .parsed t3 a3 figs3 false false⟩] db0).1 = Except.ok r
        ∧ r.files.map FileRec.file_name = [p1, p3]
        ∧ r.total_files_processed = 2 := by
  set st0 : RunState := ⟨db0, 1, [], []⟩ with hst0
  set s1 := processFile getUrl email topic date now st0
    ⟨p1, .parsed t1 a1 figs1 false false⟩ with hs1
  set s2 := processFile getUrl email topic date now s1 ⟨p2, .reductoRaise msg⟩ with hs2
  set s3 := processFile getUrl email topic date now s2
    ⟨p3, .parsed t3 a3 figs3 false false⟩ with hs3
  set sb2 := processFile getUrl email topic date now s1
    ⟨p3, .parsed t3 a3 figs3 false false⟩ with hsb2
  obtain ⟨ps1, hps1⟩ :=
    processFile_parsed_recs getUrl email topic date now st0 p1 t1 a1 figs1 h1
  obtain ⟨ps3, hps3⟩ :=
    processFile_parsed_recs getUrl email topic date now s1 p3 t3 a3 figs3 h3
  have h2 := processFile_reductoRaise getUrl email topic date now s1 p2 msg
  have hcong := processFile_counter_recs getUrl email topic date now
    ⟨p3, .parsed t3 a3 figs3 false false⟩ s2 s1 h2.1 h2.2.1
  rw [← hsb2] at hps3
  rw [← hs1] at hps1
  rw [← hs3, ← hsb2] at hcong
  have hrecsB : sb2.recs = [{ file_name := p1, created_at := now, pairings := ps1 },
      { file_name := p3, created_at := now, pairings := ps3 }] := by
    rw [hps3, hps1]
    rfl
  have hrecsA : s3.recs = [{ file_name := p1, created_at := now, pairings := ps1 },
      { file_name := p3, created_at := now, pairings := ps3 }] := by
    rw [hcong.2, hrecsB]
  have hA : (createRecommendation getUrl email topic date now 3
        [⟨p1, .parsed t1 a1 figs1 false false⟩, ⟨p2, .reductoRaise msg⟩,
         ⟨p3, .parsed t3 a3 figs3 false false⟩] db0)
      = (if s3.recs.isEmpty then (.error 500, s3)
         else (.ok { email := email, topic := topic, date := date
                     total_files_processed := s3.recs.length, files := s3.recs }, s3)) := by
    rw [hs3, hs2, hs1, hst0]
    rfl
  have hB : (createRecommendation getUrl email topic date now 3
        [⟨p1, .parsed t1 a1 figs1 false false⟩,
         ⟨p3, .parsed t3 a3 figs3 false false⟩] db0)
      = (if sb2.recs.isEmpty then (.error 500, sb2)
         else (.ok { email := email, topic := topic, date := date
                     total_files_processed := sb2.recs.length, files := sb2.recs }, sb2)) := by
    rw [hsb2, hs1, hst0]
    rfl
  have hne : s3.recs.isEmpty = false := by
    rw [hrecsA]
    rfl
  have hneB : sb2.recs.isEmpty = false := by
    rw [hrecsB]
    rfl
  constructor
  · rw [hA, hB, hne, hneB]
    simp [hrecsA, hrecsB]
  · refine ⟨{ email := email, topic := topic, date := date
              total_files_processed := 2
              files := [{ file_name := p1, created_at := now, pairings := ps1 },
                        { file_name := p3, created_at := now, pairings := ps3 }] }, ?_, ?_, ?_⟩
    · rw [hA, hne]
      simp [hrecsA]
    · rfl
    · rfl

theorem c8_partial_batch_witness :
    ∃ r, (createRecommendation (fun p => p) ("e") ("t") ("d") ("now") 3
        [⟨("f1"), .parsed none none [⟨("c1"), .ok, false⟩] false false⟩,
         ⟨("f2"), .reductoRaise ("boom")⟩,
         ⟨("f3"), .parsed none none [⟨("c3"), .ok, false⟩] false false⟩]
        { requests := [], pairings := [], nextId := 0 }).1 = Except.ok r
      ∧ r.files.map FileRec.file_name = [("f1"), ("f3")]
      ∧ r.total_files_processed = 2 :=
  (c8_partial_batch (fun p => p) ("e") ("t") ("d") ("now")
    { requests := [], pairings := [], nextId := 0 }
    ("f1") ("f2") ("f3") ("boom") none none [⟨("c1"), .ok, false⟩] none none
    [⟨("c3"), .ok, false⟩] (by decide) (by decide)).2

/-- C8, counterexample to the claim as stated: on concrete data the run
with the failing document 2 returns a result exactly equal to the run in
which document 2 never existed — nothing in the returned
`RecommendationResponse` records document 2's failure as an error (the
schema has no error field), contradicting "document 2's failure is
recorded as an error in the returned result". -/
theorem c8_counterexample :
    (createRecommendation (fun p => p) ("e") ("t") ("d") ("now") 3
        [⟨("f1"), .parsed none none [⟨("c1"), .ok, false⟩] false false⟩,
         ⟨("f2"), .reductoRaise ("boom")⟩,
         ⟨("f3"), .parsed none none [⟨("c3"), .ok, false⟩] false false⟩]
        { requests := [], pairings := [], nextId := 0 }).1
      = Except.ok
        { email := ("e"), topic := ("t"), date := ("d")
          total_files_processed := 2
          files := [{ file_name := ("f1"), created_at := ("now")
                      pairings := [⟨("c1"), ("e/t/d/figure_1.png")⟩] },
                    { file_name := ("f3"), created_at := ("now")
                      pairings := [⟨("c3"), ("e/t/d/figure_2.png")⟩] }] }
    ∧ (createRecommendation (fun p => p) ("e") ("t") ("d") ("now") 3
        [⟨("f1"), .parsed none none [⟨("c1"), .ok, false⟩] false false⟩,
         ⟨("f2"), .reductoRaise ("boom")⟩,
         ⟨("f3"), .parsed none none [⟨("c3"), .ok, false⟩] false false⟩]
        { requests := [], pairings := [], nextId := 0 }).1
      = (createRecommendation (fun p => p) ("e") ("t") ("d") ("now") 3
          [⟨("f1"), .parsed none none [⟨("c1"), .ok, false⟩] false false⟩,
           ⟨("f3"), .parsed none none [⟨("c3"), .ok, false⟩] false false⟩]
          { requests := [], pairings := [], nextId := 0 }).1 := by
  exact ⟨rfl, rfl⟩

/-! ### Email sending (`send_manga_email`, `/manga`, `/subscribe`) -/

/-- Outcome of the body of `send_manga_email` (building the HTML,
attachments and the `resend.Emails.send` call): either the Resend
response id, or an exception with message `msg` raised anywhere in the
`try` block. -/
inductive SendOutcome where
  | ok (emailId : Option String)
  | raiseErr (msg : String)
  deriving DecidableEq, Repr

/-- The dict returned by `ResendService.send_manga_email`
(src/app/services/resend_email.py lines 111-122). -/
structure EmailResult where
  success : Bool
  email_id : Option String
  error : Option String
  deriving DecidableEq, Repr

/-- Shallow embedding of `ResendService.send_manga_email`: the entire
body is wrapped in try/except, so any exception is converted into
`{success: False, error: str(e)}` and never propagates. -/
def sendMangaEmail : SendOutcome → EmailResult
  | .ok eid => { success := true, email_id := eid, error := none }
  | .raiseErr msg => { success := false, email_id := none, error := some msg }

/-- Outcome of the `send_manga_email` call as observed by a caller: the
returned dict, or (defensively, for the caller's own try/except) an
exception. -/
inductive EmailCallOutcome where
  | returned (r : EmailResult)
  | raised (msg : String)
  deriving DecidableEq, Repr

/-- The email phase of the `/manga` endpoint
(src/app/routers/manga.py lines 223-247): `email_sent`/`email_id` start
as `False`/`None`, are set from the returned dict, and an exception in
the call leaves them at their defaults; the endpoint then returns its
response either way. -/
def mangaEmailPhase : EmailCallOutcome → Bool × Option String
  | .returned r => (r.success, r.email_id)
  | .raised _ => (false, none)

/-- What `/subscribe` observes from its stage-3 call
(src/app/routers/subscriptions.py lines 102-155): the returned manga
response (its `email_sent`, `email_id` and panel count), or an
exception. -/
inductive Step3Outcome where
  | returned (email_sent : Bool) (email_id : Option String) (panels : Nat)
  | raised (msg : String)
  deriving DecidableEq, Repr

/-- The summary block `/subscribe` builds for stage 3: the pipeline
result is `success: True` regardless, with the stage reported as
"completed" only when the email was sent; an exception in stage 3 is
caught and reported as a failed stage. -/
structure SubscribeStep3Summary where
  success : Bool
  step3_status : String
  email_sent : Bool
  email_id : Option String
  panels_generated : Nat
  deriving DecidableEq, Repr

def processSubscriptionStep3 : Step3Outcome → SubscribeStep3Summary
  | .returned es eid k =>
    { success := true
      step3_status := if es then ("completed") else ("failed")
      email_sent := es
      email_id := eid
      panels_generated := k }
  | .raised _ =>
    { success := true
      step3_status := ("failed")
      email_sent := false
      email_id := none
      panels_generated := 0 }

/-- C7: an exception anywhere while building or sending the email is
caught by `send_manga_email` and returned as `{success: false, error}`;
the `/manga` endpoint then reports `email_sent = false` but still
returns its response, and the `/subscribe` pipeline still returns
`success: true` with stage 3 reported as "failed" — both when the manga
stage returned with a failed email and when the stage call itself
raised. -/
theorem c7_email_failure_contained (msg : String) (eid : Option String) (k : Nat) :
    sendMangaEmail (.raiseErr msg) = { success := false, email_id := none, error := some msg }
    ∧ mangaEmailPhase (.returned (sendMangaEmail (.raiseErr msg))) = (false, none)
    ∧ (processSubscriptionStep3 (.returned false eid k)).success = true
    ∧ (processSubscriptionStep3 (.returned false eid k)).step3_status = ("failed")
    ∧ (processSubscriptionStep3 (.raised msg)).success = true
    ∧ (processSubscriptionStep3 (.raised msg)).step3_status = ("failed") := by
  refine ⟨rfl, rfl, rfl, rfl, rfl, rfl⟩

end Mangalytics
